import Mathlib

/-!
Verification of the HEST table builder / MM communication subsystem.

Shallow embedding of:
- MdeModulePkg/Universal/Apei/HestDxe/HestDxe.c (table builder and installer)
- ArmPlatformPkg/Drivers/HestMmErrorSources/HestErrorSourceDxe.c
  (cross-domain client and the Standalone MM aggregation handler)
- the MM communication driver (MmCommunication2Communicate,
  GetMmCompatibility, MmCommunication2Initialize)

Machine integers are modelled as Nat with explicit reductions modulo
2^32 (UINT32 fields) or 2^64 (UINTN arithmetic) at the points where the
C code performs arithmetic on them.
-/

/-- 2^32, the modulus of UINT32 arithmetic. -/
def M32 : Nat := 4294967296

/-- 2^64, the modulus of UINTN arithmetic on AArch64. -/
def M64 : Nat := 18446744073709551616

/-- The subset of EFI_STATUS codes used by the modelled sources.
EFI_ERROR (x) holds for every constructor except success. -/
inductive EfiStatus where
  | success
  | invalidParameter
  | badBufferSize
  | bufferTooSmall
  | notFound
  | outOfResources
  | accessDenied
  | unsupported
  deriving DecidableEq, Repr

/-- sizeof (EFI_ACPI_6_4_HARDWARE_ERROR_SOURCE_TABLE_HEADER):
36-byte ACPI description header plus the UINT32 ErrorSourceCount. -/
def hestHeaderSize : Nat := 40

/-- A node of the HestDxe linked list (HEST_DXE_DRIVER_DATA).  The head
node carries the HEST header, whose Header.Length and ErrorSourceCount
fields are the mutable accumulators; every other node carries the bytes
of one appended descriptor block, of which only the DataLength is
relevant to the claims. -/
inductive HestBlock where
  | header (len : Nat) (errorSourceCount : Nat)
  | desc (size : Nat)
  deriving DecidableEq, Repr

/-- gHestErrorSourceList: the ordered sequence of list nodes. -/
abbrev HestState := List HestBlock

/-- Number of non-header (descriptor) blocks in the sequence. -/
def numDescriptorBlocks (s : HestState) : Nat :=
  (s.filter fun b => match b with
    | .header _ _ => false
    | .desc _ => true).length

/-- Outcome of the four AllocateZeroPool calls that one invocation of
AddErrorSourceDescriptor can make: the head node and the header data
(inside BuildHestHeader), then the descriptor node and the descriptor
data copy. true means the pool allocation returns a non-NULL pointer. -/
structure AllocPlan where
  hdrNode : Bool
  hdrData : Bool
  descNode : Bool
  descData : Bool
  deriving DecidableEq, Repr

/-- Result of AddErrorSourceDescriptor.  nullDeref records that the C
code stored through a NULL pointer (undefined behaviour) before its
NULL check could fire; the carried state is the list at that moment. -/
inductive AddResult where
  | ok (s : HestState)
  | err (e : EfiStatus) (s : HestState)
  | nullDeref (s : HestState)
  deriving DecidableEq, Repr

/-- BuildHestHeader.  The C code allocates the head node, then assigns
HestDataList->HestTableData = AllocateZeroPool (...) BEFORE testing
HestDataList == NULL; a NULL head-node allocation is therefore a store
through a NULL pointer, not an EFI_OUT_OF_RESOURCES return.  On success
the header block (Header.Length = sizeof header, ErrorSourceCount = 0)
is inserted at the head of the list. -/
def buildHestHeader (s : HestState) (hdrNode hdrData : Bool) : AddResult :=
  if !hdrNode then .nullDeref s
  else if !hdrData then .err .outOfResources s
  else .ok (HestBlock.header (hestHeaderSize % M32) 0 :: s)

/-- Update of the head node performed at the end of a successful append:
Header.Length += ErrorSourceDescriptorListSize and
ErrorSourceCount += ErrorSourceDescriptorCount, both UINT32 fields.
In every reachable state the first node is the header block. -/
def updateHeadHeader (s : HestState) (size cnt : Nat) : HestState :=
  match s with
  | HestBlock.header l c :: rest =>
      HestBlock.header ((l + size) % M32) ((c + cnt) % M32) :: rest
  | other => other

/-- AddErrorSourceDescriptor.  listNull models
ErrorSourceDescriptorList == NULL; size and cnt are
ErrorSourceDescriptorListSize and ErrorSourceDescriptorCount.  As in
BuildHestHeader, the descriptor node allocation is dereferenced before
its NULL check, hence the nullDeref outcome. -/
def addErrorSourceDescriptor (s : HestState) (p : AllocPlan)
    (listNull : Bool) (size cnt : Nat) : AddResult :=
  if listNull ∨ size = 0 then .err .invalidParameter s
  else
    let step1 : AddResult :=
      if s.isEmpty then buildHestHeader s p.hdrNode p.hdrData else .ok s
    match step1 with
    | .nullDeref s1 => .nullDeref s1
    | .err e s1 => .err e s1
    | .ok s1 =>
        if !p.descNode then .nullDeref s1
        else if !p.descData then .err .outOfResources s1
        else
          let s2 := s1 ++ [HestBlock.desc size]
          .ok (updateHeadHeader s2 size cnt)

/-- InstallHestAcpiTable, observed through its return status and whether
the external publishing service (gAcpiTableProtocol->InstallAcpiTable)
was invoked.  The only early return is the IsListEmpty check; any
non-empty list, including one holding solely the header block, is
serialized and handed to InstallAcpiTable, whose status pub is
propagated. -/
structure InstallResult where
  status : EfiStatus
  publishCalled : Bool
  deriving DecidableEq, Repr

def installHestAcpiTable (s : HestState) (pub : EfiStatus) : InstallResult :=
  if s.isEmpty then ⟨.notFound, false⟩ else ⟨pub, true⟩

/-- A sequence of AddErrorSourceDescriptor calls with valid arguments
and all allocations succeeding; stops at the first non-ok outcome. -/
def runAppends : HestState → List (Nat × Nat) → AddResult
  | s, [] => .ok s
  | s, (sz, cn) :: rest =>
      match addErrorSourceDescriptor s ⟨true, true, true, true⟩ false sz cn with
      | .ok s1 => runAppends s1 rest
      | r => r

/-- Sum of the descriptor block sizes of a list of appends. -/
def sumSizes (l : List (Nat × Nat)) : Nat := (l.map Prod.fst).sum

/-- Sum of the record counts of a list of appends. -/
def sumCounts (l : List (Nat × Nat)) : Nat := (l.map Prod.snd).sum

/-!
MM communication driver (MmCommunication2Communicate and friends).
-/

/-- MM_COMMUNICATE_HEADER_SIZE: sizeof (HeaderGuid) = 16 plus
sizeof (MessageLength) = 8 (UINTN). -/
def mmCommHeaderSize : Nat := 24

/-- ARM_SVC_ID_FFA_INTERRUPT_AARCH32 (FF-A interface id signalling an
interrupted call). -/
def armFfaInterrupt : Nat := 0x84000062

/-- ARM_SVC_ID_FFA_MSG_SEND_DIRECT_RESP (AArch64 variant). -/
def armFfaDirectResp : Nat := 0xC4000070

/-- ARM_SMC_MM_RET_SUCCESS. -/
def armSmcMmRetSuccess : Nat := 0

/-- ARM_SMC_MM_RET_INVALID_PARAMS (-2 as a UINTN). -/
def armSmcMmRetInvalidParams : Nat := M64 - 2

/-- ARM_SMC_MM_RET_DENIED (-3 as a UINTN). -/
def armSmcMmRetDenied : Nat := M64 - 3

/-- ARM_SMC_MM_RET_NO_MEMORY (-4 as a UINTN). -/
def armSmcMmRetNoMemory : Nat := M64 - 4

/-- BufferSize = CommunicateHeader->MessageLength + sizeof (HeaderGuid)
+ sizeof (MessageLength), computed in UINTN arithmetic. -/
def commBufferSize (ml : Nat) : Nat := (ml + mmCommHeaderSize) % M64

/-- ZeroMem (b, n) on a byte region modelled as a list. -/
def zeroMemList (b : List Nat) (n : Nat) : List Nat :=
  (b.take n).map (fun _ => 0) ++ b.drop n

/-- CopyMem (dst, src, n) on byte regions modelled as lists. -/
def copyMemList (dst src : List Nat) (n : Nat) : List Nat :=
  src.take n ++ dst.drop n

/-- The optional CommSize inspection of MmCommunication2Communicate:
first cs == 0 or cs > capacity sets EFI_BAD_BUFFER_SIZE, then
cs < BufferSize overrides with EFI_INVALID_PARAMETER. -/
def commSizeCheck (commSize : Option Nat) (cap bufSize : Nat) : EfiStatus :=
  match commSize with
  | none => .success
  | some cs =>
      let s0 := if cs = 0 ∨ cs > cap then EfiStatus.badBufferSize else .success
      if cs < bufSize then .invalidParameter else s0

/-- Inputs of one MmCommunication2Communicate call.  localBuf is the
caller's envelope (CommBufferVirtual) as bytes, sharedBuf the shared
channel region before the call, cap its capacity
(mNsCommBuffMemRegion.Length).  calleeResp is the content the callee
leaves in the shared region after the final SMC return and respML the
MessageLength field it wrote there; errCode is Arg2 of an FF-A error
return. -/
structure CommIn where
  bufNull : Bool
  ml : Nat
  commSize : Option Nat
  localBuf : List Nat
  cap : Nat
  sharedBuf : List Nat
  ffaEnable : Bool
  errCode : Nat
  calleeResp : List Nat
  respML : Nat
  deriving DecidableEq, Repr

/-- Observable outcome of one MmCommunication2Communicate call.
sentSize is the number of bytes copied into the shared region before
the SMC (none if the SMC was never reached); mlOut is the MessageLength
field visible to the caller afterwards (rewritten on the size-error
path). -/
structure CommOut where
  status : EfiStatus
  smcInvoked : Bool
  resumeCalls : Nat
  sentSize : Option Nat
  localOut : List Nat
  sharedOut : List Nat
  mlOut : Nat
  deriving DecidableEq, Repr

/-- The ffa_intr_loop of MmCommunication2Communicate: rets is the
sequence of Arg0 values of successive ArmCallSmc returns; while FF-A is
enabled and the return is ARM_SVC_ID_FFA_INTERRUPT_AARCH32 the driver
issues ARM_SVC_ID_FFA_RUN_AARCH32 and calls again.  Returns the first
terminal Arg0 and the number of resume invocations. -/
def ffaIntrLoop (ffaEnable : Bool) : List Nat → Nat × Nat
  | [] => (0, 0)
  | r :: rest =>
      if ffaEnable && r == armFfaInterrupt then
        let p := ffaIntrLoop ffaEnable rest
        (p.1, p.2 + 1)
      else (r, 0)

/-- Mapping of the terminal SMC/FF-A error code to EFI_STATUS (the
switch at the end of MmCommunication2Communicate). -/
def mmMapError (e : Nat) : EfiStatus :=
  if e = armSmcMmRetInvalidParams then .invalidParameter
  else if e = armSmcMmRetDenied then .accessDenied
  else if e = armSmcMmRetNoMemory then .outOfResources
  else .accessDenied

/-- The part of MmCommunication2Communicate after the SMC loop has
produced a terminal value lp = (Arg0, resume count).  On success the
caller's envelope is zeroed over the request BufferSize and the
response is copied out of the shared region, sized by the returned
MessageLength plus header; the shared region itself is left as the
callee wrote it. -/
def mmCommTransact (x : CommIn) (lp : Nat × Nat) : CommOut :=
  let bufSize := commBufferSize x.ml
  if (x.ffaEnable && lp.1 == armFfaDirectResp) || lp.1 == armSmcMmRetSuccess then
    let respSize := commBufferSize x.respML
    ⟨.success, true, lp.2, some bufSize,
      copyMemList (zeroMemList x.localBuf bufSize) x.calleeResp respSize,
      x.calleeResp, x.respML⟩
  else
    ⟨mmMapError (if x.ffaEnable then x.errCode else lp.1), true, lp.2,
      some bufSize, x.localBuf, x.calleeResp, x.ml⟩

/-- MmCommunication2Communicate.  The guard order follows the source:
NULL pointers, then the CommSize inspection, then the MessageLength /
capacity check, whose EFI_BAD_BUFFER_SIZE assignment overwrites any
status the CommSize inspection set, and which rewrites the header
MessageLength to capacity minus header size (UINTN arithmetic). -/
def mmCommunication2Communicate (x : CommIn) (rets : List Nat) : CommOut :=
  if x.bufNull then
    ⟨.invalidParameter, false, 0, none, x.localBuf, x.sharedBuf, x.ml⟩
  else if x.ml = 0 ∨ commBufferSize x.ml > x.cap then
    ⟨.badBufferSize, false, 0, none, x.localBuf, x.sharedBuf,
      (x.cap + (M64 - mmCommHeaderSize)) % M64⟩
  else if commSizeCheck x.commSize x.cap (commBufferSize x.ml) ≠ .success then
    ⟨commSizeCheck x.commSize x.cap (commBufferSize x.ml), false, 0, none,
      x.localBuf, x.sharedBuf, x.ml⟩
  else
    mmCommTransact
      { x with sharedBuf := copyMemList x.sharedBuf x.localBuf (commBufferSize x.ml) }
      (ffaIntrLoop x.ffaEnable rets)

/-!
Version negotiation (GetMmCompatibility) and driver initialization
(MmCommunication2Initialize).
-/

/-- MM_MAJOR_VER (x) = ((x) AND 0xEFFF0000) SHR 16, with the mask
exactly as written in MmCommunicate.h. -/
def mmMajorVer (v : Nat) : Nat := (Nat.land v 0xEFFF0000) >>> 16

/-- MM_MINOR_VER (x) = (x) AND 0x0000FFFF. -/
def mmMinorVer (v : Nat) : Nat := Nat.land v 0xFFFF

/-- MM_CALLER_MAJOR_VER: 1 with or without FF-A. -/
def mmCallerMajorVer (_ffa : Bool) : Nat := 1

/-- MM_CALLER_MINOR_VER: 1 when FF-A is enabled, 0 otherwise. -/
def mmCallerMinorVer (ffa : Bool) : Nat := if ffa then 1 else 0

/-- Outcomes of the four FF-A discovery SMCs made by GetMmCompatibility
when PcdFfaEnable is set: FFA_ID_GET, FFA_RXTX_MAP,
FFA_PARTITION_INFO_GET and FFA_RX_RELEASE.  true means the SMC did not
return ARM_SVC_ID_FFA_ERROR_AARCH32. -/
structure FfaDiscovery where
  idGetOk : Bool
  rxtxMapOk : Bool
  partInfoOk : Bool
  rxReleaseOk : Bool
  deriving DecidableEq, Repr

/-- GetMmCompatibility.  The version check computes success or
EFI_UNSUPPORTED into Status; when FF-A is enabled the subsequent
discovery block returns its own result (EFI_UNSUPPORTED on any failed
discovery SMC, EFI_SUCCESS once the RX buffer is released), discarding
the version-check Status; only without FF-A is Status returned. -/
def getMmCompatibility (ffa : Bool) (mmVersion : Nat) (d : FfaDiscovery) :
    EfiStatus :=
  let st : EfiStatus :=
    if mmMajorVer mmVersion = mmCallerMajorVer ffa ∧
       mmMinorVer mmVersion ≥ mmCallerMinorVer ffa
    then .success else .unsupported
  if ffa then
    if !d.idGetOk then .unsupported
    else if !d.rxtxMapOk then .unsupported
    else if !d.partInfoOk then .unsupported
    else if !d.rxReleaseOk then .unsupported
    else .success
  else st

/-- MmCommunication2Initialize, observed through its return status and
whether the MM communication protocol ends up installed (data calls are
only possible through the installed protocol and the guided events
created after it).  Every error path funnels through ReturnErrorStatus,
which returns EFI_INVALID_PARAMETER; restOk abstracts the memory-space,
protocol-installation and event-creation steps that follow a successful
compatibility check, with the protocol uninstalled again on their
failure. -/
def mmCommunication2Initialize (ffa : Bool) (mmVersion : Nat)
    (d : FfaDiscovery) (restOk : Bool) : EfiStatus × Bool :=
  match getMmCompatibility ffa mmVersion d with
  | .success => if restOk then (.success, true) else (.invalidParameter, false)
  | _ => (.invalidParameter, false)

/-!
Standalone MM aggregation handler (HestErrorSourcesInfoMmiHandler) and
the DXE-side client (AppendMmErrorSources, HestErrorSourceInitialize).
-/

/-- HEST_ERROR_SOURCE_DESC_INFO_SIZE.  Modelled from the spec: the
defining header HestMmErrorSourceCommon.h is not among the sources; the
structure carries the descriptor-list pointer and the UINTN count and
size accumulators ("Info Block" of the spec), and none of the claims
depend on the numeric value. -/
def hestErrSourceDescInfoSize : Nat := 24

/-- One MM driver implementing the HEST error source descriptor
protocol, as seen by the aggregation handler: the status of
MmHandleProtocol for its handle, the reply to the NULL-buffer probe
(status, would-be byte length, record count), and the status of the
buffered fetch call. -/
structure MmProvider where
  handleStatus : EfiStatus
  probeStatus : EfiStatus
  probeLen : Nat
  probeCount : Nat
  fetchStatus : EfiStatus
  deriving DecidableEq, Repr

/-- Accumulator of the probe loop: TotalSourceLength, TotalSourceCount
(UINTN additions) and the number of providers actually queried with a
NULL buffer. -/
structure ProbeAcc where
  totalLen : Nat
  totalCount : Nat
  queried : Nat
  deriving DecidableEq, Repr

/-- One iteration of the probe loop: a handle whose protocol lookup
fails is skipped entirely; otherwise the provider is queried with a
NULL buffer and contributes its reported length and count exactly when
it answers EFI_BUFFER_TOO_SMALL. -/
def probeStep (a : ProbeAcc) (p : MmProvider) : ProbeAcc :=
  if p.handleStatus ≠ .success then a
  else if p.probeStatus = .bufferTooSmall then
    ⟨(a.totalLen + p.probeLen) % M64, (a.totalCount + p.probeCount) % M64,
      a.queried + 1⟩
  else ⟨a.totalLen, a.totalCount, a.queried + 1⟩

/-- The probe pass over all discovered providers. -/
def probePass (ps : List MmProvider) : ProbeAcc := ps.foldl probeStep ⟨0, 0, 0⟩

/-- The providers whose probe reply contributes to the totals. -/
def contributing (ps : List MmProvider) : List MmProvider :=
  ps.filter fun p =>
    p.handleStatus == .success && p.probeStatus == .bufferTooSmall

/-- Sum of the reported byte lengths of a provider list. -/
def sumProbeLen (ps : List MmProvider) : Nat := (ps.map MmProvider.probeLen).sum

/-- Sum of the reported record counts of a provider list. -/
def sumProbeCount (ps : List MmProvider) : Nat :=
  (ps.map MmProvider.probeCount).sum

/-- GetHestErrorSourceProtocolHandles maps every error other than
EFI_BUFFER_TOO_SMALL to EFI_NOT_FOUND and passes the status through
otherwise. -/
def getHandlesStatus (st : EfiStatus) : EfiStatus :=
  if st ≠ .success ∧ st ≠ .bufferTooSmall then .notFound else st

/-- Environment of one HestErrorSourcesInfoMmiHandler invocation:
locate1/size1 are the status and HandleBufferSize of the first handle
lookup, allocOk the HandleBuffer allocation, locate2 the second lookup,
and providers the drivers behind the discovered handles. -/
structure MmiEnv where
  locate1 : EfiStatus
  size1 : Nat
  allocOk : Bool
  locate2 : EfiStatus
  providers : List MmProvider
  deriving DecidableEq, Repr

/-- Observable outcome of the handler: its status, the
(ErrSourceDescCount, ErrSourceDescSize) pair written into the
communication buffer (none if nothing was written) and whether the
fetch loop was reached. -/
structure MmiResult where
  status : EfiStatus
  written : Option (Nat × Nat)
  fetched : Bool
  deriving DecidableEq, Repr

/-- Final status of the fetch loop: each iteration overwrites Status
with the handle lookup error or the fetch status of that provider, so
the handler returns the last provider's status. -/
def fetchFinalStatus (ps : List MmProvider) (st0 : EfiStatus) : EfiStatus :=
  ps.foldl
    (fun _ p => if p.handleStatus ≠ .success then p.handleStatus
                else p.fetchStatus)
    st0

/-- HestErrorSourcesInfoMmiHandler.  The CommBuffer must hold at least
the HEST_ERROR_SOURCE_DESC_INFO structure; the required total is
TotalSourceLength + HEST_ERROR_SOURCE_DESC_INFO_SIZE (UINTN addition)
and the exact totals are written into the buffer before that check. -/
def hestErrorSourcesInfoMmiHandler (commBufferSize : Nat) (env : MmiEnv) :
    MmiResult :=
  if commBufferSize < hestErrSourceDescInfoSize then
    ⟨.invalidParameter, none, false⟩
  else
    let st1 := getHandlesStatus env.locate1
    if st1 = .notFound ∨ env.size1 = 0 then ⟨st1, none, false⟩
    else if !env.allocOk then ⟨.outOfResources, none, false⟩
    else
      let st2 := getHandlesStatus env.locate2
      if st2 ≠ .success then ⟨st2, none, false⟩
      else
        let acc := probePass env.providers
        let required := (acc.totalLen + hestErrSourceDescInfoSize) % M64
        if commBufferSize < required then
          ⟨.bufferTooSmall, some (acc.totalCount, acc.totalLen), false⟩
        else
          ⟨fetchFinalStatus env.providers st2,
            some (acc.totalCount, acc.totalLen), true⟩

/-- Environment of one AppendMmErrorSources pass: the two communication
buffer allocations, the statuses of the two MM Communicate calls, the
info-block contents read after the first call, whether the descriptor
list pointer read after the second call is NULL, and the status of
AddErrorSourceDescriptors. -/
structure ClientEnv where
  alloc1Ok : Bool
  call1 : EfiStatus
  info1Size : Nat
  info1Count : Nat
  alloc2Ok : Bool
  call2 : EfiStatus
  descListNull : Bool
  addStatus : EfiStatus
  deriving DecidableEq, Repr

/-- GetErrorSourceDescriptors: rejects a communication buffer smaller
than the MM communicate header plus the info block, otherwise returns
the status of the Communicate call. -/
def getErrorSourceDescriptors (commBuffSize : Nat) (callStatus : EfiStatus) :
    EfiStatus :=
  if commBuffSize < mmCommHeaderSize + hestErrSourceDescInfoSize then
    .badBufferSize
  else callStatus

/-- AppendMmErrorSources, observed through its return status and
whether the descriptors were handed to the table builder
(AddErrorSourceDescriptors reached). -/
def appendMmErrorSources (e : ClientEnv) : EfiStatus × Bool :=
  if !e.alloc1Ok then (.outOfResources, false)
  else
    let st1 := getErrorSourceDescriptors
      (mmCommHeaderSize + hestErrSourceDescInfoSize) e.call1
    if st1 ≠ .success ∧ st1 ≠ .bufferTooSmall then (st1, false)
    else if e.info1Size = 0 ∨ e.info1Count = 0 then (.notFound, false)
    else if !e.alloc2Ok then (.outOfResources, false)
    else
      let st2 := getErrorSourceDescriptors
        (mmCommHeaderSize + hestErrSourceDescInfoSize + e.info1Size) e.call2
      if st2 ≠ .success then (st2, false)
      else if e.descListNull then (.notFound, false)
      else (e.addStatus, true)

/-- HestErrorSourceInitialize: after locating both protocols it runs
the client pass, logs its status, and returns EFI_SUCCESS regardless.
The pair holds the status the entry point observes from the pass and
the status it returns to its own caller. -/
def hestErrorSourceInitialize (locHest locMm : EfiStatus) (e : ClientEnv) :
    EfiStatus × EfiStatus :=
  if locHest ≠ .success then (locHest, locHest)
  else if locMm ≠ .success then (locMm, locMm)
  else ((appendMmErrorSources e).1, .success)

/-!
Theorems.  Shared helper lemmas first, then one theorem per claim.
-/

theorem sumSizes_cons (a : Nat × Nat) (l : List (Nat × Nat)) :
    sumSizes (a :: l) = a.1 + sumSizes l := by simp [sumSizes]

theorem sumCounts_cons (a : Nat × Nat) (l : List (Nat × Nat)) :
    sumCounts (a :: l) = a.2 + sumCounts l := by simp [sumCounts]

theorem runAppends_from_header (appends : List (Nat × Nat)) :
    ∀ (l c : Nat) (ds : List HestBlock),
    l + sumSizes appends < M32 → c + sumCounts appends < M32 →
    (∀ p ∈ appends, p.1 ≠ 0) →
    runAppends (HestBlock.header l c :: ds) appends
      = .ok (HestBlock.header (l + sumSizes appends) (c + sumCounts appends)
          :: (ds ++ appends.map fun p => HestBlock.desc p.1)) := by
  induction appends with
  | nil =>
      intro l c ds _ _ _
      simp [runAppends, sumSizes, sumCounts]
  | cons a rest ih =>
      intro l c ds h1 h2 h3
      obtain ⟨sz, cn⟩ := a
      rw [sumSizes_cons] at h1
      rw [sumCounts_cons] at h2
      have hsz : sz ≠ 0 := by
        have := h3 (sz, cn) (List.mem_cons_self _ _)
        simpa using this
      have hm1 : (l + sz) % M32 = l + sz := Nat.mod_eq_of_lt (by omega)
      have hm2 : (c + cn) % M32 = c + cn := Nat.mod_eq_of_lt (by omega)
      have hstep :
          addErrorSourceDescriptor (HestBlock.header l c :: ds)
            ⟨true, true, true, true⟩ false sz cn
            = .ok (HestBlock.header (l + sz) (c + cn) :: (ds ++ [HestBlock.desc sz])) := by
        simp [addErrorSourceDescriptor, hsz, updateHeadHeader, hm1, hm2]
      rw [runAppends, hstep]
      show runAppends (HestBlock.header (l + sz) (c + cn)
        :: (ds ++ [HestBlock.desc sz])) rest = _
      have := ih (l + sz) (c + cn) (ds ++ [HestBlock.desc sz])
        (by omega) (by omega)
        (fun p hp => h3 p (List.mem_cons_of_mem _ hp))
      rw [this]
      simp [sumSizes_cons, sumCounts_cons, Nat.add_assoc]

/-- C1 counterexample: the state holding only the lazily created header
block (reachable when the descriptor-node data allocation fails after
BuildHestHeader succeeded) has zero appended descriptor blocks, yet
InstallHestAcpiTable does not return NotFound on it: the list is not
empty, so the table is serialized and InstallAcpiTable is invoked. -/
theorem install_header_only_publishes :
    addErrorSourceDescriptor [] ⟨true, true, true, false⟩ false 16 1
      = AddResult.err .outOfResources [HestBlock.header 40 0]
    ∧ numDescriptorBlocks [HestBlock.header 40 0] = 0
    ∧ installHestAcpiTable [HestBlock.header 40 0] .success
      = ⟨.success, true⟩
    ∧ (installHestAcpiTable [HestBlock.header 40 0] .success).status
      ≠ .notFound := by decide

/-- C1 (amended): InstallHestAcpiTable returns NotFound and performs no
publish call exactly when the aggregate sequence is empty (contains no
blocks at all); when only the header block exists, it proceeds and
invokes the publishing service, propagating its status. -/
theorem install_empty_not_found :
    (∀ pub : EfiStatus, installHestAcpiTable [] pub = ⟨.notFound, false⟩)
    ∧ (∀ (pub : EfiStatus) (l c : Nat),
        installHestAcpiTable [HestBlock.header l c] pub = ⟨pub, true⟩) := by
  constructor
  · intro pub; rfl
  · intro pub l c; rfl

/-- C2: after every sequence of successful AddErrorSourceDescriptor
calls (valid arguments, allocations succeeding, sums within UINT32
range), the header block sits at sequence position 0, its Length field
equals the header struct size plus the sum of all appended descriptor
block sizes, and its ErrorSourceCount equals the sum of all appended
record counts; the descriptor blocks follow in arrival order. -/
theorem add_error_source_descriptor_header_totals
    (first : Nat × Nat) (rest : List (Nat × Nat))
    (hvalid : ∀ p ∈ first :: rest, p.1 ≠ 0)
    (hlen : hestHeaderSize + sumSizes (first :: rest) < M32)
    (hcnt : sumCounts (first :: rest) < M32) :
    runAppends [] (first :: rest)
      = .ok (HestBlock.header (hestHeaderSize + sumSizes (first :: rest))
          (sumCounts (first :: rest))
          :: (first :: rest).map fun p => HestBlock.desc p.1) := by
  obtain ⟨sz, cn⟩ := first
  rw [sumSizes_cons] at hlen
  rw [sumCounts_cons] at hcnt
  have hsz : sz ≠ 0 := by
    have := hvalid (sz, cn) (List.mem_cons_self _ _)
    simpa using this
  have hhdr : hestHeaderSize % M32 = hestHeaderSize := by decide
  have hm1 : (hestHeaderSize + sz) % M32 = hestHeaderSize + sz :=
    Nat.mod_eq_of_lt (by simp [hestHeaderSize] at hlen ⊢; omega)
  have hm2 : cn % M32 = cn := Nat.mod_eq_of_lt (by omega)
  have hstep :
      addErrorSourceDescriptor [] ⟨true, true, true, true⟩ false sz cn
        = .ok (HestBlock.header (hestHeaderSize + sz) cn :: [HestBlock.desc sz]) := by
    simp [addErrorSourceDescriptor, hsz, buildHestHeader, hhdr,
      updateHeadHeader, hm1, hm2]
  rw [runAppends, hstep]
  show runAppends (HestBlock.header (hestHeaderSize + sz) cn
    :: [HestBlock.desc sz]) rest = _
  have := runAppends_from_header rest (hestHeaderSize + sz) cn [HestBlock.desc sz]
    (by omega) (by omega)
    (fun p hp => hvalid p (List.mem_cons_of_mem _ hp))
  rw [this]
  simp [sumSizes_cons, sumCounts_cons, Nat.add_assoc]

theorem add_error_source_descriptor_header_totals_witness :
    runAppends [] [(64, 2), (16, 1)]
      = .ok (HestBlock.header (hestHeaderSize + sumSizes [(64, 2), (16, 1)])
          (sumCounts [(64, 2), (16, 1)])
          :: ([(64, 2), (16, 1)] : List (Nat × Nat)).map
               fun p => HestBlock.desc p.1) :=
  add_error_source_descriptor_header_totals (64, 2) [(16, 1)]
    (by decide) (by decide) (by decide)

/-- C10: when the pool allocation of the list node returns NULL, both
BuildHestHeader and the descriptor-append path of
AddErrorSourceDescriptor store through the NULL node pointer before
their NULL check runs, instead of returning OutOfResources; only a NULL
result of the subsequent data allocation is caught and returned as
OutOfResources. -/
theorem alloc_failure_null_deref :
    addErrorSourceDescriptor [] ⟨false, true, true, true⟩ false 16 1
      = .nullDeref []
    ∧ addErrorSourceDescriptor [HestBlock.header 40 0]
        ⟨true, true, false, true⟩ false 16 1
      = .nullDeref [HestBlock.header 40 0]
    ∧ addErrorSourceDescriptor [] ⟨false, true, true, true⟩ false 16 1
      ≠ .err .outOfResources []
    ∧ addErrorSourceDescriptor [] ⟨true, false, true, true⟩ false 16 1
      = .err .outOfResources [] := by decide

/-- C3 counterexample: without FF-A, a major-version mismatch makes
GetMmCompatibility return Unsupported, but MmCommunication2Initialize
then funnels through ReturnErrorStatus and reports InvalidParameter,
not Unsupported, to its caller. -/
theorem version_mismatch_init_invalid_parameter :
    getMmCompatibility false 0x00020000 ⟨true, true, true, true⟩
      = .unsupported
    ∧ mmCommunication2Initialize false 0x00020000 ⟨true, true, true, true⟩ true
      = (.invalidParameter, false)
    ∧ EfiStatus.invalidParameter ≠ EfiStatus.unsupported := by decide

/-- C3 (amended): when FF-A is disabled and the negotiated version has
a different major number (or a lower minor number), GetMmCompatibility
returns Unsupported and MmCommunication2Initialize aborts before
installing the communication protocol, returning InvalidParameter, so
no data call can be made for the rest of the boot pass; when FF-A is
enabled, a successful FF-A discovery sequence masks the version
mismatch and GetMmCompatibility reports success. -/
theorem version_mismatch_behavior :
    (∀ (v : Nat) (d : FfaDiscovery) (restOk : Bool),
      ¬(mmMajorVer v = mmCallerMajorVer false
        ∧ mmMinorVer v ≥ mmCallerMinorVer false) →
      getMmCompatibility false v d = .unsupported
      ∧ mmCommunication2Initialize false v d restOk
          = (.invalidParameter, false))
    ∧ (∀ v : Nat,
      ¬(mmMajorVer v = mmCallerMajorVer true
        ∧ mmMinorVer v ≥ mmCallerMinorVer true) →
      getMmCompatibility true v ⟨true, true, true, true⟩ = .success) := by
  constructor
  · intro v d restOk h
    have hc : getMmCompatibility false v d = .unsupported := by
      simp [getMmCompatibility, h]
    exact ⟨hc, by simp [mmCommunication2Initialize, hc]⟩
  · intro v _
    rfl

theorem version_mismatch_behavior_witness :
    getMmCompatibility false 0x00020000 ⟨false, false, false, false⟩
      = .unsupported
    ∧ mmCommunication2Initialize false 0x00020000 ⟨false, false, false, false⟩
        true = (.invalidParameter, false) :=
  version_mismatch_behavior.1 0x00020000 ⟨false, false, false, false⟩ true
    (by decide)

theorem mmCommTransact_sentSize (x : CommIn) (lp : Nat × Nat) :
    (mmCommTransact x lp).sentSize = some (commBufferSize x.ml) := by
  unfold mmCommTransact
  split <;> rfl

/-- C4 counterexample: with MessageLength = 2^64 - 24 the mathematical
total size MessageLength + header vastly exceeds the 4096-byte shared
buffer, yet the UINTN computation of BufferSize wraps to 0, every size
check passes, and the domain-crossing SMC is invoked instead of
returning the buffer-size error. -/
theorem communicate_overflow_invokes_smc :
    (M64 - 24) + mmCommHeaderSize > 4096
    ∧ M64 - 24 ≠ 0
    ∧ (mmCommunication2Communicate
        ⟨false, M64 - 24, none, [], 4096, [], false, 0, [], 0⟩
        [armSmcMmRetSuccess]).smcInvoked = true
    ∧ (mmCommunication2Communicate
        ⟨false, M64 - 24, none, [], 4096, [], false, 0, [], 0⟩
        [armSmcMmRetSuccess]).status ≠ .badBufferSize := by decide

/-- C4 (amended): whenever the total size as the code computes it in
UINTN arithmetic, (MessageLength + 24) mod 2^64, exceeds the shared
buffer capacity, or MessageLength is zero, Communicate returns
EFI_BAD_BUFFER_SIZE with the maximum tolerable payload (capacity minus
header, in UINTN arithmetic) written back into the caller's header and
the SMC is never invoked; and whenever the SMC is invoked, the number
of bytes copied into the shared buffer is (MessageLength + 24) mod 2^64
and never exceeds the capacity.  (Because of the 64-bit wraparound, a
MessageLength within 24 of 2^64 makes the mathematical total exceed the
capacity while the call still proceeds.) -/
theorem communicate_size_guard :
    (∀ (x : CommIn) (rets : List Nat),
      x.bufNull = false →
      (x.ml = 0 ∨ commBufferSize x.ml > x.cap) →
      mmCommunication2Communicate x rets
        = ⟨.badBufferSize, false, 0, none, x.localBuf, x.sharedBuf,
            (x.cap + (M64 - mmCommHeaderSize)) % M64⟩)
    ∧ (∀ (x : CommIn) (rets : List Nat) (n : Nat),
      (mmCommunication2Communicate x rets).sentSize = some n →
      n ≤ x.cap ∧ n = commBufferSize x.ml) := by
  constructor
  · intro x rets hb hcond
    simp [mmCommunication2Communicate, hb, hcond]
  · intro x rets n h
    by_cases hb : x.bufNull
    · simp [mmCommunication2Communicate, hb] at h
    · by_cases hc : x.ml = 0 ∨ commBufferSize x.ml > x.cap
      · simp [mmCommunication2Communicate, hb, hc] at h
      · by_cases hcs :
          commSizeCheck x.commSize x.cap (commBufferSize x.ml) = .success
        · simp [mmCommunication2Communicate, hb, hc, hcs,
            mmCommTransact_sentSize] at h
          push_neg at hc
          omega
        · simp [mmCommunication2Communicate, hb, hc, hcs] at h

theorem communicate_size_guard_witness :
    mmCommunication2Communicate ⟨false, 0, none, [7], 100, [9], false, 0, [], 0⟩
        []
      = ⟨.badBufferSize, false, 0, none, [7], [9],
          (100 + (M64 - mmCommHeaderSize)) % M64⟩ :=
  communicate_size_guard.1 ⟨false, 0, none, [7], 100, [9], false, 0, [], 0⟩ []
    rfl (Or.inl rfl)

theorem ffaIntrLoop_replicate (k r : Nat) (rest : List Nat)
    (h : r ≠ armFfaInterrupt) :
    ffaIntrLoop true (List.replicate k armFfaInterrupt ++ r :: rest)
      = (r, k) := by
  induction k with
  | zero => simp [ffaIntrLoop, h]
  | succ n ih => simp [List.replicate_succ, ffaIntrLoop, ih]

theorem mmCommTransact_smcInvoked (x : CommIn) (lp : Nat × Nat) :
    (mmCommTransact x lp).smcInvoked = true := by
  unfold mmCommTransact
  split <;> rfl

theorem mmCommTransact_resumeCalls (x : CommIn) (lp : Nat × Nat) :
    (mmCommTransact x lp).resumeCalls = lp.2 := by
  unfold mmCommTransact
  split <;> rfl

theorem mmCommunicate_transact_eq (x : CommIn) (rets : List Nat)
    (hb : x.bufNull = false)
    (hc : ¬(x.ml = 0 ∨ commBufferSize x.ml > x.cap))
    (hcs : commSizeCheck x.commSize x.cap (commBufferSize x.ml) = .success) :
    mmCommunication2Communicate x rets
      = mmCommTransact
          ⟨x.bufNull, x.ml, x.commSize, x.localBuf, x.cap,
            copyMemList x.sharedBuf x.localBuf (commBufferSize x.ml),
            x.ffaEnable, x.errCode, x.calleeResp, x.respML⟩
          (ffaIntrLoop x.ffaEnable rets) := by
  unfold mmCommunication2Communicate
  rw [if_neg (by simp [hb]), if_neg hc, if_neg (by simp [hcs])]

theorem mmCommTransact_resume_irrel (x : CommIn) (r k j : Nat) :
    (mmCommTransact x (r, k)).status = (mmCommTransact x (r, j)).status
    ∧ (mmCommTransact x (r, k)).sentSize = (mmCommTransact x (r, j)).sentSize
    ∧ (mmCommTransact x (r, k)).localOut = (mmCommTransact x (r, j)).localOut
    ∧ (mmCommTransact x (r, k)).sharedOut = (mmCommTransact x (r, j)).sharedOut
    ∧ (mmCommTransact x (r, k)).mlOut = (mmCommTransact x (r, j)).mlOut := by
  by_cases hcond :
      ((x.ffaEnable && (r == armFfaDirectResp)) || (r == armSmcMmRetSuccess))
        = true
  · simp [mmCommTransact, hcond]
  · simp [mmCommTransact, hcond]

/-- C8: if the domain-crossing SMC reports the FF-A interrupted
indication k consecutive times before a terminal value r, the Channel
resumes k times internally and the call's observable outcome (status,
envelope contents, shared region, write-backs) is identical to a call
in which r was returned immediately: the Client observes only the final
terminal result. -/
theorem interrupt_loop_transparent (x : CommIn) (k r : Nat)
    (rest : List Nat) (hffa : x.ffaEnable = true)
    (hr : r ≠ armFfaInterrupt) :
    (mmCommunication2Communicate x
        (List.replicate k armFfaInterrupt ++ r :: rest)).status
      = (mmCommunication2Communicate x [r]).status
    ∧ (mmCommunication2Communicate x
        (List.replicate k armFfaInterrupt ++ r :: rest)).smcInvoked
      = (mmCommunication2Communicate x [r]).smcInvoked
    ∧ (mmCommunication2Communicate x
        (List.replicate k armFfaInterrupt ++ r :: rest)).sentSize
      = (mmCommunication2Communicate x [r]).sentSize
    ∧ (mmCommunication2Communicate x
        (List.replicate k armFfaInterrupt ++ r :: rest)).localOut
      = (mmCommunication2Communicate x [r]).localOut
    ∧ (mmCommunication2Communicate x
        (List.replicate k armFfaInterrupt ++ r :: rest)).sharedOut
      = (mmCommunication2Communicate x [r]).sharedOut
    ∧ (mmCommunication2Communicate x
        (List.replicate k armFfaInterrupt ++ r :: rest)).mlOut
      = (mmCommunication2Communicate x [r]).mlOut
    ∧ (mmCommunication2Communicate x
        (List.replicate k armFfaInterrupt ++ r :: rest)).resumeCalls
      = (if (mmCommunication2Communicate x [r]).smcInvoked then k else 0) := by
  have hlong : ffaIntrLoop x.ffaEnable
      (List.replicate k armFfaInterrupt ++ r :: rest) = (r, k) := by
    rw [hffa]; exact ffaIntrLoop_replicate k r rest hr
  have hshort : ffaIntrLoop x.ffaEnable [r] = (r, 0) := by
    rw [hffa]
    simpa using ffaIntrLoop_replicate 0 r [] hr
  by_cases hb : x.bufNull
  · simp [mmCommunication2Communicate, hb]
  · have hbf : x.bufNull = false := by simpa using hb
    by_cases hc : x.ml = 0 ∨ commBufferSize x.ml > x.cap
    · simp [mmCommunication2Communicate, hbf, hc]
    · by_cases hcs :
        commSizeCheck x.commSize x.cap (commBufferSize x.ml) = .success
      · rw [mmCommunicate_transact_eq x _ hbf hc hcs,
          mmCommunicate_transact_eq x [r] hbf hc hcs, hlong, hshort]
        refine ⟨(mmCommTransact_resume_irrel _ r k 0).1,
          by rw [mmCommTransact_smcInvoked, mmCommTransact_smcInvoked],
          (mmCommTransact_resume_irrel _ r k 0).2.1,
          (mmCommTransact_resume_irrel _ r k 0).2.2.1,
          (mmCommTransact_resume_irrel _ r k 0).2.2.2.1,
          (mmCommTransact_resume_irrel _ r k 0).2.2.2.2, ?_⟩
        rw [mmCommTransact_resumeCalls, mmCommTransact_smcInvoked]
        simp
      · simp [mmCommunication2Communicate, hbf, hc, hcs]

theorem interrupt_loop_transparent_witness :
    (mmCommunication2Communicate
        ⟨false, 8, none, [1, 2], 64, [0, 0], true, 0, [5, 6], 4⟩
        (List.replicate 2 armFfaInterrupt ++ armFfaDirectResp :: [])).status
      = (mmCommunication2Communicate
          ⟨false, 8, none, [1, 2], 64, [0, 0], true, 0, [5, 6], 4⟩
          [armFfaDirectResp]).status
    ∧ (mmCommunication2Communicate
        ⟨false, 8, none, [1, 2], 64, [0, 0], true, 0, [5, 6], 4⟩
        (List.replicate 2 armFfaInterrupt ++ armFfaDirectResp :: [])).smcInvoked
      = (mmCommunication2Communicate
          ⟨false, 8, none, [1, 2], 64, [0, 0], true, 0, [5, 6], 4⟩
          [armFfaDirectResp]).smcInvoked
    ∧ (mmCommunication2Communicate
        ⟨false, 8, none, [1, 2], 64, [0, 0], true, 0, [5, 6], 4⟩
        (List.replicate 2 armFfaInterrupt ++ armFfaDirectResp :: [])).sentSize
      = (mmCommunication2Communicate
          ⟨false, 8, none, [1, 2], 64, [0, 0], true, 0, [5, 6], 4⟩
          [armFfaDirectResp]).sentSize
    ∧ (mmCommunication2Communicate
        ⟨false, 8, none, [1, 2], 64, [0, 0], true, 0, [5, 6], 4⟩
        (List.replicate 2 armFfaInterrupt ++ armFfaDirectResp :: [])).localOut
      = (mmCommunication2Communicate
          ⟨false, 8, none, [1, 2], 64, [0, 0], true, 0, [5, 6], 4⟩
          [armFfaDirectResp]).localOut
    ∧ (mmCommunication2Communicate
        ⟨false, 8, none, [1, 2], 64, [0, 0], true, 0, [5, 6], 4⟩
        (List.replicate 2 armFfaInterrupt ++ armFfaDirectResp :: [])).sharedOut
      = (mmCommunication2Communicate
          ⟨false, 8, none, [1, 2], 64, [0, 0], true, 0, [5, 6], 4⟩
          [armFfaDirectResp]).sharedOut
    ∧ (mmCommunication2Communicate
        ⟨false, 8, none, [1, 2], 64, [0, 0], true, 0, [5, 6], 4⟩
        (List.replicate 2 armFfaInterrupt ++ armFfaDirectResp :: [])).mlOut
      = (mmCommunication2Communicate
          ⟨false, 8, none, [1, 2], 64, [0, 0], true, 0, [5, 6], 4⟩
          [armFfaDirectResp]).mlOut
    ∧ (mmCommunication2Communicate
        ⟨false, 8, none, [1, 2], 64, [0, 0], true, 0, [5, 6], 4⟩
        (List.replicate 2 armFfaInterrupt ++ armFfaDirectResp :: [])).resumeCalls
      = (if (mmCommunication2Communicate
            ⟨false, 8, none, [1, 2], 64, [0, 0], true, 0, [5, 6], 4⟩
            [armFfaDirectResp]).smcInvoked then 2 else 0) :=
  interrupt_loop_transparent
    ⟨false, 8, none, [1, 2], 64, [0, 0], true, 0, [5, 6], 4⟩
    2 armFfaDirectResp [] rfl (by decide)

/-- C9 counterexample: on a successful channel call the shared region
is NOT zeroed after the copy-out; it still holds the callee's response
bytes.  (What the code zeroes is the caller's local envelope, before
copying the response into it.) -/
theorem success_path_shared_not_zeroed :
    (mmCommunication2Communicate
        ⟨false, 1, none, [9, 9, 9], 32, [0, 0, 0], false, 0, [1, 2, 3], 1⟩
        [armSmcMmRetSuccess]).status = .success
    ∧ (mmCommunication2Communicate
        ⟨false, 1, none, [9, 9, 9], 32, [0, 0, 0], false, 0, [1, 2, 3], 1⟩
        [armSmcMmRetSuccess]).sharedOut = [1, 2, 3]
    ∧ (mmCommunication2Communicate
        ⟨false, 1, none, [9, 9, 9], 32, [0, 0, 0], false, 0, [1, 2, 3], 1⟩
        [armSmcMmRetSuccess]).sharedOut ≠ List.replicate 3 0 := by decide

theorem copyMemList_get_lt (dst src : List Nat) (n i : Nat)
    (h1 : i < n) (h2 : i < src.length) :
    (copyMemList dst src n).get? i = src.get? i := by
  unfold copyMemList
  rw [List.get?_append]
  · exact List.get?_take h1
  · rw [List.length_take]
    omega

/-- C9 (amended): on every successful completion of a channel call the
Channel zeroes the caller's local envelope over the request size and
then copies the response out of the shared region into it, sized by the
returned MessageLength plus header; the shared region itself is left
exactly as the callee wrote it (it is not zeroed). -/
theorem success_path_copy_out (x : CommIn) (rets : List Nat) (r k : Nat)
    (hb : x.bufNull = false)
    (hc : ¬(x.ml = 0 ∨ commBufferSize x.ml > x.cap))
    (hcs : commSizeCheck x.commSize x.cap (commBufferSize x.ml) = .success)
    (hloop : ffaIntrLoop x.ffaEnable rets = (r, k))
    (hsucc : ((x.ffaEnable && (r == armFfaDirectResp))
        || (r == armSmcMmRetSuccess)) = true) :
    (mmCommunication2Communicate x rets).status = .success
    ∧ (mmCommunication2Communicate x rets).sharedOut = x.calleeResp
    ∧ (mmCommunication2Communicate x rets).localOut
        = copyMemList (zeroMemList x.localBuf (commBufferSize x.ml))
            x.calleeResp (commBufferSize x.respML)
    ∧ ∀ i : Nat, i < commBufferSize x.respML → i < x.calleeResp.length →
        (mmCommunication2Communicate x rets).localOut.get? i
          = x.calleeResp.get? i := by
  rw [mmCommunicate_transact_eq x rets hb hc hcs, hloop]
  unfold mmCommTransact
  rw [if_pos hsucc]
  refine ⟨rfl, rfl, rfl, ?_⟩
  intro i hi1 hi2
  exact copyMemList_get_lt _ _ _ i hi1 hi2

theorem success_path_copy_out_witness :
    (mmCommunication2Communicate
        ⟨false, 1, none, [9, 9, 9], 32, [0, 0, 0], false, 0, [1, 2, 3], 1⟩
        [armSmcMmRetSuccess]).status = .success
    ∧ (mmCommunication2Communicate
        ⟨false, 1, none, [9, 9, 9], 32, [0, 0, 0], false, 0, [1, 2, 3], 1⟩
        [armSmcMmRetSuccess]).sharedOut = [1, 2, 3]
    ∧ (mmCommunication2Communicate
        ⟨false, 1, none, [9, 9, 9], 32, [0, 0, 0], false, 0, [1, 2, 3], 1⟩
        [armSmcMmRetSuccess]).localOut
      = copyMemList (zeroMemList [9, 9, 9] (commBufferSize 1)) [1, 2, 3]
          (commBufferSize 1)
    ∧ (mmCommunication2Communicate
        ⟨false, 1, none, [9, 9, 9], 32, [0, 0, 0], false, 0, [1, 2, 3], 1⟩
        [armSmcMmRetSuccess]).localOut.get? 1
      = ([1, 2, 3] : List Nat).get? 1 := by
  have h := success_path_copy_out
    ⟨false, 1, none, [9, 9, 9], 32, [0, 0, 0], false, 0, [1, 2, 3], 1⟩
    [armSmcMmRetSuccess] armSmcMmRetSuccess 0
    rfl (by decide) rfl rfl (by decide)
  exact ⟨h.1, h.2.1, h.2.2.1, h.2.2.2 1 (by decide) (by decide)⟩

theorem sumProbeLen_cons (p : MmProvider) (l : List MmProvider) :
    sumProbeLen (p :: l) = p.probeLen + sumProbeLen l := by
  simp [sumProbeLen]

theorem sumProbeCount_cons (p : MmProvider) (l : List MmProvider) :
    sumProbeCount (p :: l) = p.probeCount + sumProbeCount l := by
  simp [sumProbeCount]

theorem probePass_from (ps : List MmProvider) :
    ∀ a : ProbeAcc,
    (∀ p ∈ ps, p.handleStatus = .success) →
    a.totalLen + sumProbeLen (contributing ps) < M64 →
    a.totalCount + sumProbeCount (contributing ps) < M64 →
    ps.foldl probeStep a
      = ⟨a.totalLen + sumProbeLen (contributing ps),
          a.totalCount + sumProbeCount (contributing ps),
          a.queried + ps.length⟩ := by
  induction ps with
  | nil =>
      intro a _ _ _
      obtain ⟨al, ac, aq⟩ := a
      simp [contributing, sumProbeLen, sumProbeCount]
  | cons p rest ih =>
      intro a hall h1 h2
      have hp : p.handleStatus = .success := hall p (List.mem_cons_self _ _)
      by_cases hps : p.probeStatus = .bufferTooSmall
      · have hcontr : contributing (p :: rest) = p :: contributing rest := by
          simp [contributing, List.filter_cons, hp, hps]
        rw [hcontr] at h1 h2 ⊢
        rw [sumProbeLen_cons] at h1
        rw [sumProbeCount_cons] at h2
        have hstep : probeStep a p
            = ⟨a.totalLen + p.probeLen, a.totalCount + p.probeCount,
                a.queried + 1⟩ := by
          have hm1 : (a.totalLen + p.probeLen) % M64
              = a.totalLen + p.probeLen := Nat.mod_eq_of_lt (by omega)
          have hm2 : (a.totalCount + p.probeCount) % M64
              = a.totalCount + p.probeCount := Nat.mod_eq_of_lt (by omega)
          simp [probeStep, hp, hps, hm1, hm2]
        rw [List.foldl_cons, hstep]
        rw [ih ⟨a.totalLen + p.probeLen, a.totalCount + p.probeCount,
            a.queried + 1⟩
          (fun q hq => hall q (List.mem_cons_of_mem _ hq))
          (by simp; omega) (by simp; omega)]
        simp [sumProbeLen_cons, sumProbeCount_cons, List.length_cons]
        omega
      · have hcontr : contributing (p :: rest) = contributing rest := by
          simp [contributing, List.filter_cons, hps]
        rw [hcontr] at h1 h2 ⊢
        have hstep : probeStep a p
            = ⟨a.totalLen, a.totalCount, a.queried + 1⟩ := by
          simp [probeStep, hp, hps]
        rw [List.foldl_cons, hstep]
        rw [ih ⟨a.totalLen, a.totalCount, a.queried + 1⟩
          (fun q hq => hall q (List.mem_cons_of_mem _ hq))
          (by simpa using h1) (by simpa using h2)]
        simp [List.length_cons]
        omega

/-- C5: in the probe pass, every discovered provider whose protocol
lookup succeeds is queried with a NULL buffer, and exactly the
providers answering EFI_BUFFER_TOO_SMALL contribute their reported
length and count to the accumulated totals; a provider returning any
other status is skipped, leaves the totals unchanged, and does not
abort the pass for the remaining providers. -/
theorem probe_pass_totals (ps : List MmProvider)
    (hall : ∀ p ∈ ps, p.handleStatus = .success)
    (hlen : sumProbeLen (contributing ps) < M64)
    (hcnt : sumProbeCount (contributing ps) < M64) :
    probePass ps
      = ⟨sumProbeLen (contributing ps), sumProbeCount (contributing ps),
          ps.length⟩ := by
  have h := probePass_from ps ⟨0, 0, 0⟩ hall (by simpa using hlen)
    (by simpa using hcnt)
  simpa [probePass] using h

theorem probe_pass_totals_witness :
    probePass
        [⟨.success, .bufferTooSmall, 64, 2, .success⟩,
         ⟨.success, .accessDenied, 100, 9, .success⟩,
         ⟨.success, .success, 50, 5, .success⟩]
      = ⟨sumProbeLen (contributing
            [⟨.success, .bufferTooSmall, 64, 2, .success⟩,
             ⟨.success, .accessDenied, 100, 9, .success⟩,
             ⟨.success, .success, 50, 5, .success⟩]),
          sumProbeCount (contributing
            [⟨.success, .bufferTooSmall, 64, 2, .success⟩,
             ⟨.success, .accessDenied, 100, 9, .success⟩,
             ⟨.success, .success, 50, 5, .success⟩]),
          3⟩ :=
  probe_pass_totals
    [⟨.success, .bufferTooSmall, 64, 2, .success⟩,
     ⟨.success, .accessDenied, 100, 9, .success⟩,
     ⟨.success, .success, 50, 5, .success⟩]
    (by decide) (by decide) (by decide)

/-- C6: if the communication buffer is strictly smaller than the info
block size plus the total probed descriptor bytes (and discovery and
the handle-buffer allocation succeed, so the probe pass runs), the
handler never succeeds: it returns InvalidParameter when the buffer
cannot even hold the info block, and otherwise returns BufferTooSmall
after recording the exact probed totals (count and size) in the buffer;
the fetch loop is never reached. -/
theorem mmi_small_buffer_never_succeeds (commBufferSize : Nat) (env : MmiEnv)
    (h1 : getHandlesStatus env.locate1 ≠ .notFound)
    (h2 : env.size1 ≠ 0)
    (h3 : env.allocOk = true)
    (h4 : getHandlesStatus env.locate2 = .success)
    (hov : (probePass env.providers).totalLen + hestErrSourceDescInfoSize
      < M64)
    (hsmall : commBufferSize
      < hestErrSourceDescInfoSize + (probePass env.providers).totalLen) :
    (commBufferSize < hestErrSourceDescInfoSize →
      hestErrorSourcesInfoMmiHandler commBufferSize env
        = ⟨.invalidParameter, none, false⟩)
    ∧ (hestErrSourceDescInfoSize ≤ commBufferSize →
      hestErrorSourcesInfoMmiHandler commBufferSize env
        = ⟨.bufferTooSmall,
            some ((probePass env.providers).totalCount,
              (probePass env.providers).totalLen), false⟩)
    ∧ (hestErrorSourcesInfoMmiHandler commBufferSize env).status
        ≠ .success := by
  by_cases hlt : commBufferSize < hestErrSourceDescInfoSize
  · have hres : hestErrorSourcesInfoMmiHandler commBufferSize env
        = ⟨.invalidParameter, none, false⟩ := by
      simp [hestErrorSourcesInfoMmiHandler, hlt]
    refine ⟨fun _ => hres, fun hge => absurd hlt (by omega), ?_⟩
    rw [hres]
    decide
  · have hreq : ((probePass env.providers).totalLen
        + hestErrSourceDescInfoSize) % M64
        = (probePass env.providers).totalLen + hestErrSourceDescInfoSize :=
      Nat.mod_eq_of_lt hov
    have hres : hestErrorSourcesInfoMmiHandler commBufferSize env
        = ⟨.bufferTooSmall,
            some ((probePass env.providers).totalCount,
              (probePass env.providers).totalLen), false⟩ := by
      unfold hestErrorSourcesInfoMmiHandler
      rw [if_neg hlt, if_neg (by simp [h1, h2]), if_neg (by simp [h3]),
        if_neg (by simp [h4]), if_pos (by rw [hreq]; omega)]
    refine ⟨fun hc => absurd hc hlt, fun _ => hres, ?_⟩
    rw [hres]
    simp

theorem mmi_small_buffer_never_succeeds_witness :
    hestErrorSourcesInfoMmiHandler 30
        ⟨.bufferTooSmall, 8, true, .success,
          [⟨.success, .bufferTooSmall, 64, 2, .success⟩]⟩
      = ⟨.bufferTooSmall,
          some ((probePass
              [⟨.success, .bufferTooSmall, 64, 2, .success⟩]).totalCount,
            (probePass
              [⟨.success, .bufferTooSmall, 64, 2, .success⟩]).totalLen),
          false⟩ :=
  (mmi_small_buffer_never_succeeds 30
    ⟨.bufferTooSmall, 8, true, .success,
      [⟨.success, .bufferTooSmall, 64, 2, .success⟩]⟩
    (by decide) (by decide) rfl (by decide) (by decide) (by decide)).2.1
    (by decide)

theorem getErrorSourceDescriptors_passthrough (extra : Nat) (st : EfiStatus) :
    getErrorSourceDescriptors
        (mmCommHeaderSize + hestErrSourceDescInfoSize + extra) st = st := by
  unfold getErrorSourceDescriptors
  rw [if_neg (by omega)]

/-- C7: every Channel-level error of the probe-then-fetch sequence
aborts the pass (the descriptors are never handed to the table builder)
and AppendMmErrorSources returns that very error code to its caller
HestErrorSourceInitialize, which observes it unchanged (and then
returns EFI_SUCCESS to the boot sequencer). -/
theorem client_channel_error_surfaced :
    (∀ e : ClientEnv, e.alloc1Ok = true → e.call1 ≠ .success →
      e.call1 ≠ .bufferTooSmall →
      appendMmErrorSources e = (e.call1, false)
      ∧ hestErrorSourceInitialize .success .success e
          = (e.call1, .success))
    ∧ (∀ e : ClientEnv, e.alloc1Ok = true →
      (e.call1 = .success ∨ e.call1 = .bufferTooSmall) →
      e.info1Size ≠ 0 → e.info1Count ≠ 0 → e.alloc2Ok = true →
      e.call2 ≠ .success →
      appendMmErrorSources e = (e.call2, false)
      ∧ hestErrorSourceInitialize .success .success e
          = (e.call2, .success)) := by
  have hpass : ∀ (extra : Nat) (st : EfiStatus),
      getErrorSourceDescriptors
        (mmCommHeaderSize + hestErrSourceDescInfoSize + extra) st = st :=
    getErrorSourceDescriptors_passthrough
  have hpass0 : ∀ st : EfiStatus,
      getErrorSourceDescriptors
        (mmCommHeaderSize + hestErrSourceDescInfoSize) st = st := by
    intro st
    have h := hpass 0 st
    simpa using h
  constructor
  · intro e ha hc1 hc2
    have happ : appendMmErrorSources e = (e.call1, false) := by
      unfold appendMmErrorSources
      rw [hpass0]
      simp [ha, hc1, hc2]
    exact ⟨happ, by simp [hestErrorSourceInitialize, happ]⟩
  · intro e ha hc1 hs hcnt ha2 hc2
    have happ : appendMmErrorSources e = (e.call2, false) := by
      unfold appendMmErrorSources
      rw [hpass0, hpass e.info1Size]
      have hnot : ¬(e.call1 ≠ .success ∧ e.call1 ≠ .bufferTooSmall) := by
        rcases hc1 with h | h <;> simp [h]
      simp [ha, hnot, hs, hcnt, ha2, hc2]
    exact ⟨happ, by simp [hestErrorSourceInitialize, happ]⟩

theorem client_channel_error_surfaced_witness :
    appendMmErrorSources
        ⟨true, .accessDenied, 0, 0, true, .success, false, .success⟩
      = (.accessDenied, false)
    ∧ hestErrorSourceInitialize .success .success
        ⟨true, .accessDenied, 0, 0, true, .success, false, .success⟩
      = (.accessDenied, .success) :=
  client_channel_error_surfaced.1
    ⟨true, .accessDenied, 0, 0, true, .success, false, .success⟩
    rfl (by decide) (by decide)
